import Mathlib

/-!
Verification development for the MUI translator service (src/app.py).

The Python source is shallowly embedded: each method of `MUITranslator`
and the `/translate` orchestration become executable Lean definitions,
keeping the source's names where Lean allows it.  XML handling is
modelled by an executable recursive-descent reader for the element
subset the service actually manipulates (tags without attributes,
element text, tails), matching `xml.etree.ElementTree` on that subset.
Whitespace predicates follow the ASCII whitespace of `String.trim`.
-/

namespace MuiApp

/-- ASCII uppercase letter, the regex class A-Z. -/
def isUpperAZ (c : Char) : Bool := 'A' ≤ c && c ≤ 'Z'

/-- ASCII lowercase letter, the regex class a-z. -/
def isLowerAZ (c : Char) : Bool := 'a' ≤ c && c ≤ 'z'

/-- ASCII digit, the regex class 0-9. -/
def isDigit09 (c : Char) : Bool := '0' ≤ c && c ≤ '9'

/-- Hexadecimal digit, the regex class 0-9A-Fa-f. -/
def isHexDig (c : Char) : Bool :=
  isDigit09 c || ('A' ≤ c && c ≤ 'F') || ('a' ≤ c && c ≤ 'f')

/-- The character class a-zA-Z0-9._- of the dotted-identifier pattern. -/
def isDottedClassChar (c : Char) : Bool :=
  isLowerAZ c || isUpperAZ c || isDigit09 c || c == '.' || c == '_' || c == '-'

/-- Body of the pattern [A-Z_][A-Z0-9_]* from `is_code_like`. -/
def matchUpperConst : List Char → Bool
  | [] => false
  | c :: cs =>
    (isUpperAZ c || c == '_')
      && cs.all (fun d => isUpperAZ d || isDigit09 d || d == '_')

/-- Body of the pattern \d+ (ASCII digits) from `is_code_like`. -/
def matchDigits (l : List Char) : Bool := !l.isEmpty && l.all isDigit09

/-- Body of the pattern [a-zA-Z0-9._-]+\.[a-zA-Z0-9._-]+ : every character
lies in the class and some interior position carries a dot, which is
exactly solvability of the split into two nonempty class segments. -/
def matchDotted (l : List Char) : Bool :=
  l.all isDottedClassChar && ((l.drop 1).dropLast).contains '.'

/-- Body of the pattern #[0-9A-Fa-f]+ from `is_code_like`. -/
def matchHexColor : List Char → Bool
  | '#' :: cs => !cs.isEmpty && cs.all isHexDig
  | _ => false

/-- The unanchored-prefix pattern \$[a-zA-Z_] from `is_code_like`. -/
def matchDollarVar : List Char → Bool
  | '$' :: c :: _ => isLowerAZ c || isUpperAZ c || c == '_'
  | _ => false

/-- Python `re` end anchor: the body must match the whole string or the
whole string short of one final newline. -/
def matchToEnd (body : List Char → Bool) (l : List Char) : Bool :=
  body l || (l.getLast? == some '\n' && body l.dropLast)

/-- `MUITranslator.is_code_like` (src/app.py lines 76-95): the five
anchored patterns tried in order, then the length-below-two rule. -/
def is_code_like (text : String) : Bool :=
  let l := text.toList
  if matchToEnd matchUpperConst l then true
  else if matchToEnd matchDigits l then true
  else if matchToEnd matchDotted l then true
  else if matchToEnd matchHexColor l then true
  else if matchDollarVar l then true
  else if text.length < 2 then true
  else false

/-- An element of the parsed tree, as `xml.etree.ElementTree` views it on
the attribute-free subset: tag name, direct text before the first child
(the empty string standing for Python's `None`), children in document
order, and the tail text following the element's close tag. -/
inductive XNode where
  | node (tag : String) (text : String) (children : List XNode) (tail : String)

/-- Tag name of an element. -/
def XNode.tagOf : XNode → String
  | .node t _ _ _ => t

/-- Direct text of an element. -/
def XNode.textOf : XNode → String
  | .node _ t _ _ => t

/-- Children of an element, in document order. -/
def XNode.childrenOf : XNode → List XNode
  | .node _ _ c _ => c

/-- Replace the tail text of an element. -/
def XNode.withTail : XNode → String → XNode
  | .node t x c _, tl => .node t x c tl

/-- Characters allowed in an element name. -/
def isNameChar (c : Char) : Bool :=
  isLowerAZ c || isUpperAZ c || isDigit09 c || c == '_' || c == '-' || c == '.' || c == ':'

/-- Longest run of name characters at the front of the input. -/
def spanName (cs : List Char) : List Char × List Char :=
  (cs.takeWhile isNameChar, cs.dropWhile isNameChar)

/-- Longest run of ordinary text (everything up to the next tag opener). -/
def spanText (cs : List Char) : List Char × List Char :=
  (cs.takeWhile (fun c => c != '<'), cs.dropWhile (fun c => c != '<'))

mutual

/-- Read one element `<name>text children</name>` from the front of the
input; the fuel argument bounds the recursion depth and is chosen large
enough for any input at the top-level entry point. -/
def parseElem : Nat → List Char → Option (XNode × List Char)
  | 0, _ => none
  | fuel + 1, cs =>
    match cs with
    | '<' :: r0 =>
      match spanName r0 with
      | ([], _) => none
      | (nm, r1) =>
        match r1 with
        | '>' :: r2 =>
          let (txt, r3) := spanText r2
          match parseItems fuel r3 with
          | some (kids, r4) =>
            match r4 with
            | '<' :: '/' :: r5 =>
              if nm.isPrefixOf r5 then
                match r5.drop nm.length with
                | '>' :: r6 =>
                  some (XNode.node (String.mk nm) (String.mk txt) kids "", r6)
                | _ => none
              else none
            | _ => none
          | none => none
        | _ => none
    | _ => none

/-- Read a sequence of sibling elements, each followed by its tail text,
stopping at a closing tag or at the end of the input. -/
def parseItems : Nat → List Char → Option (List XNode × List Char)
  | 0, _ => none
  | fuel + 1, cs =>
    match cs with
    | '<' :: '/' :: _ => some ([], cs)
    | '<' :: _ =>
      match parseElem fuel cs with
      | some (nd, r1) =>
        let (tl, r2) := spanText r1
        match parseItems fuel r2 with
        | some (sibs, r3) => some (nd.withTail (String.mk tl) :: sibs, r3)
        | none => none
      | none => none
    | _ => some ([], cs)

end

/-- `ET.fromstring` on the modelled subset: optional surrounding
whitespace around a single root element, nothing else. -/
def parseXML (s : String) : Option XNode :=
  let cs := s.toList.dropWhile (fun c => c.isWhitespace)
  match parseElem (2 * s.length + 4) cs with
  | some (root, rest) =>
    if rest.dropWhile (fun c => c.isWhitespace) = [] then some root else none
  | none => none

/-- BOM normalisation of `parse_mui_file` (src/app.py lines 33-38): drop
a leading U+FEFF, then delete every remaining U+FEFF. -/
def stripBOMchars (s : String) : String :=
  let s1 := if s.toList.head? = some '\uFEFF' then String.mk (s.toList.drop 1) else s
  String.mk (s1.toList.filter (fun c => c != '\uFEFF'))

/-- One extracted translatable unit, the dictionary built at
src/app.py lines 56-61. -/
structure TNode where
  path : String
  tag : String
  original_text : String
  element_full_match : String
deriving DecidableEq

/-- Leading and trailing whitespace removed from a character list. -/
def trimChars (l : List Char) : List Char :=
  ((l.dropWhile Char.isWhitespace).reverse.dropWhile Char.isWhitespace).reverse

/-- Python's `str.strip()` with no arguments (whitespace at both ends),
as a kernel-reducible function on the string's character list. -/
def pyStrip (s : String) : String := String.mk (trimChars s.toList)

/-- The snippet `<tag>text</tag>` used both for `element_full_match` and
for the replacement string during reconstruction. -/
def tagWrap (tag t : String) : String :=
  "<" ++ tag ++ ">" ++ t ++ "</" ++ tag ++ ">"

/-- The nested `extract_texts` walker of `parse_mui_file` (src/app.py
lines 47-64): for each child in order, emit a node when its trimmed
direct text is nonempty and not code-like, then recurse into the child
with the extended path.  The fuel bounds the tree depth; the entry point
passes more fuel than any tree parsed from the same content can need. -/
def extract_texts : Nat → XNode → String → List TNode
  | 0, _, _ => []
  | fuel + 1, element, path =>
    element.childrenOf.flatMap fun child =>
      let current_path := if path = "" then child.tagOf else path ++ "/" ++ child.tagOf
      let text := pyStrip child.textOf
      (if text ≠ "" ∧ is_code_like text = false then
        [⟨current_path, child.tagOf, text, tagWrap child.tagOf text⟩]
      else []) ++ extract_texts fuel child current_path

/-- The error taxonomy of the pipeline, one constructor per raise site
reached from `/translate`. -/
inductive AppError where
  | invalidFormat
  | noTranslatableContent
  | missingApiKey
  | gatewayStatus (code : Nat)
  | reconstructionDamaged
deriving DecidableEq

/-- `MUITranslator.parse_mui_file` (src/app.py lines 30-74): BOM strip,
parse, extract; returns the node list together with the stored
`original_structure` (the BOM-stripped raw text). -/
def parse_mui_file (file_content : String) : Except AppError (List TNode × String) :=
  let content := stripBOMchars file_content
  match parseXML content with
  | none => Except.error AppError.invalidFormat
  | some root => Except.ok (extract_texts (content.length + 1) root "", content)

/-- Python `str.replace(old, new, 1)` on character lists: rewrite the
first occurrence of `old` and leave everything else untouched; with an
empty `old` the replacement lands in front of the string. -/
def listReplaceFirst : List Char → List Char → List Char → List Char
  | [], old, new => if old = [] then new else []
  | c :: rest, old, new =>
    if old.isPrefixOf (c :: rest) then new ++ (c :: rest).drop old.length
    else c :: listReplaceFirst rest old new

/-- Index of the first occurrence of `old` as a contiguous sublist. -/
def firstOccIdx : List Char → List Char → Option Nat
  | [], old => if old = [] then some 0 else none
  | c :: rest, old =>
    if old.isPrefixOf (c :: rest) then some 0
    else (firstOccIdx rest old).map (· + 1)

/-- Python `str.replace(old, new, 1)` on strings. -/
def strReplaceFirst (s old new : String) : String :=
  String.mk (listReplaceFirst s.toList old.toList new.toList)

/-- The substitution loop of `reconstruct_mui_file` (src/app.py lines
168-174): nodes are consumed in canonical order, each one (while a
translation at its index exists) replacing the first occurrence of its
`element_full_match` in the working text by the wrapped translation. -/
def substituteAll : String → List TNode → List String → String
  | content, [], _ => content
  | content, _ :: _, [] => content
  | content, n :: ns, t :: ts =>
    substituteAll (strReplaceFirst content n.element_full_match (tagWrap n.tag t)) ns ts

/-- `MUITranslator.reconstruct_mui_file` (src/app.py lines 162-188):
substitute every translated node, then re-parse the candidate and fail
without output if it is no longer well-formed. -/
def reconstruct_mui_file (original_structure : String) (nodes : List TNode)
    (translations : List String) : Except AppError String :=
  let reconstructed_content := substituteAll original_structure nodes translations
  match parseXML reconstructed_content with
  | some _ => Except.ok reconstructed_content
  | none => Except.error AppError.reconstructionDamaged

/-- Python `split('\n')` on a character list. -/
def splitOnNewline : List Char → List (List Char)
  | [] => [[]]
  | c :: rest =>
    match splitOnNewline rest with
    | [] => [[]]
    | cur :: done => if c = '\n' then [] :: cur :: done else (c :: cur) :: done

/-- The line comprehension of src/app.py line 148: strip each line and
keep only the lines that remain nonempty. -/
def cleanLines (ls : List String) : List String :=
  (ls.map pyStrip).filter (fun s => s != "")

/-- Lines of the gateway reply as `translate_texts` consumes them
(src/app.py lines 145-148): strip the payload, split on newlines, strip
each line, discard blank lines. -/
def parseGatewayLines (body : String) : List String :=
  cleanLines ((splitOnNewline (pyStrip body).toList).map String.mk)

/-- One pass of the backfill loop of src/app.py lines 153-154, the
counter carrying the number of iterations still possible: while the
translation list is shorter than the source list, append the source
text sitting at the current length. -/
def padLoopAux : Nat → List String → List String → List String
  | 0, translations, _ => translations
  | k + 1, translations, texts =>
    if h : translations.length < texts.length then
      padLoopAux k (translations ++ [texts.get ⟨translations.length, h⟩]) texts
    else translations

/-- The backfill loop of src/app.py lines 153-154; each iteration grows
the list by one, so the length gap bounds the iteration count exactly. -/
def padLoop (translations texts : List String) : List String :=
  padLoopAux (texts.length - translations.length) translations texts

/-- The gateway reply as the service reads it: HTTP status plus the text
of the first content block. -/
structure GatewayResponse where
  status : Nat
  text : String
deriving DecidableEq

/-- `MUITranslator.translate_texts` (src/app.py lines 97-160) with the
network call made explicit, paired with whether the request was sent:
missing key fails before any network access; a non-200 status fails
after it; otherwise the reply lines are parsed and backfilled. -/
def translate_texts_traced (key : Option String) (texts_to_translate : List TNode)
    (resp : GatewayResponse) : Except AppError (List String) × Bool :=
  match key with
  | none => (Except.error AppError.missingApiKey, false)
  | some _ =>
    if resp.status ≠ 200 then (Except.error (AppError.gatewayStatus resp.status), true)
    else
      let texts_list := texts_to_translate.map TNode.original_text
      let translations := parseGatewayLines resp.text
      (Except.ok (padLoop translations texts_list), true)

/-- `MUITranslator.translate_texts`, result component. -/
def translate_texts (key : Option String) (texts_to_translate : List TNode)
    (resp : GatewayResponse) : Except AppError (List String) :=
  (translate_texts_traced key texts_to_translate resp).1

/-- The five lines one node contributes to the report body
(src/app.py lines 203-209). -/
def reportRecordOf (n : TNode) (t : String) : List String :=
  ["Element: " ++ n.tag,
   "Oryginał: " ++ n.original_text,
   "Tłumaczenie: " ++ t,
   "Ścieżka: " ++ n.path,
   "---"]

/-- The report body loop of src/app.py lines 201-209: records are
emitted per node in canonical order while a translation at the node's
index exists. -/
def reportRecords : List TNode → List String → List String
  | [], _ => []
  | _ :: _, [] => []
  | n :: ns, t :: ts => reportRecordOf n t ++ reportRecords ns ts

/-- The header block of src/app.py lines 192-199, with the timestamp
passed in (the source reads the clock there). -/
def reportHeader (now : String) (translationCount : Nat) : List String :=
  ["=== RAPORT TŁUMACZENIA PLIKU .MUI ===",
   "Data: " ++ now,
   "Liczba przetłumaczonych elementów: " ++ toString translationCount,
   "",
   "SZCZEGÓŁY TŁUMACZEŃ:",
   ""]

/-- `MUITranslator.generate_translation_report` (src/app.py lines
190-211). -/
def generate_translation_report (now : String) (nodes : List TNode)
    (translations : List String) : String :=
  String.intercalate "\n" (reportHeader now translations.length ++ reportRecords nodes translations)

/-- The `/translate` orchestration (src/app.py lines 245-261) from the
decoded file content on, paired with whether the gateway was invoked:
parse, reject empty extractions, translate, reconstruct, report. -/
def translate_mui_run (file_content : String) (key : Option String)
    (resp : GatewayResponse) (now : String) :
    Except AppError (String × String) × Bool :=
  match parse_mui_file file_content with
  | Except.error e => (Except.error e, false)
  | Except.ok (translatable_texts, original_structure) =>
    if translatable_texts.isEmpty then (Except.error AppError.noTranslatableContent, false)
    else
      match translate_texts_traced key translatable_texts resp with
      | (Except.error e, called) => (Except.error e, called)
      | (Except.ok translations, called) =>
        match reconstruct_mui_file original_structure translatable_texts translations with
        | Except.error e => (Except.error e, called)
        | Except.ok reconstructed =>
          (Except.ok (reconstructed, generate_translation_report now translatable_texts translations),
           called)

/-! Helper lemmas about the embedded operations. -/

theorem mk_toList (s : String) : String.mk s.toList = s := rfl

/-- `listReplaceFirst` rewrites exactly the segment at the first
occurrence of `old` and returns the input untouched when `old` does not
occur. -/
theorem listReplaceFirst_spec (s old new : List Char) :
    listReplaceFirst s old new =
      match firstOccIdx s old with
      | some k => s.take k ++ new ++ s.drop (k + old.length)
      | none => s := by
  induction s with
  | nil =>
    by_cases h : old = [] <;> simp [listReplaceFirst, firstOccIdx, h]
  | cons c rest ih =>
    by_cases h : old.isPrefixOf (c :: rest)
    · simp [listReplaceFirst, firstOccIdx, h]
    · simp only [listReplaceFirst, firstOccIdx, h, ite_false, Bool.false_eq_true]
      cases hidx : firstOccIdx rest old with
      | none =>
        rw [hidx] at ih
        exact congrArg (c :: ·) ih
      | some k =>
        rw [hidx] at ih
        have harith : k + 1 + old.length = (k + old.length) + 1 := by omega
        calc c :: listReplaceFirst rest old new
            = c :: (rest.take k ++ new ++ rest.drop (k + old.length)) := by rw [ih]
          _ = (c :: rest).take (k + 1) ++ new ++ (c :: rest).drop (k + 1 + old.length) := by
              rw [List.take_succ_cons, harith, List.drop_succ_cons]
              rfl

/-- Replacing a pattern by itself is the identity. -/
theorem listReplaceFirst_self (s old : List Char) :
    listReplaceFirst s old old = s := by
  induction s with
  | nil => by_cases h : old = [] <;> simp [listReplaceFirst, h]
  | cons c rest ih =>
    by_cases h : old.isPrefixOf (c :: rest)
    · have hpre : old <+: c :: rest := List.isPrefixOf_iff_prefix.mp h
      obtain ⟨t, ht⟩ := hpre
      simp only [listReplaceFirst, h, ite_true]
      rw [← ht, List.drop_left]
    · simp [listReplaceFirst, h, ih]

/-- A pattern that does not occur leaves the text unchanged. -/
theorem listReplaceFirst_of_notFound (s old new : List Char)
    (h : firstOccIdx s old = none) : listReplaceFirst s old new = s := by
  rw [listReplaceFirst_spec, h]

theorem strReplaceFirst_self (s old : String) : strReplaceFirst s old old = s := by
  unfold strReplaceFirst
  rw [listReplaceFirst_self, mk_toList]

theorem strReplaceFirst_of_notFound (s old new : String)
    (h : firstOccIdx s.toList old.toList = none) : strReplaceFirst s old new = s := by
  unfold strReplaceFirst
  rw [listReplaceFirst_of_notFound _ _ _ h, mk_toList]

/-- The backfill loop, run with enough iterations allowed, appends
exactly the sources beyond the current length. -/
theorem padLoopAux_eq (k : Nat) :
    ∀ (translations texts : List String),
      texts.length - translations.length ≤ k →
      padLoopAux k translations texts =
        translations ++ texts.drop translations.length := by
  induction k with
  | zero =>
    intro tr tx h
    have hle : tx.length ≤ tr.length := by omega
    simp [padLoopAux, List.drop_eq_nil_of_le hle]
  | succ k ih =>
    intro tr tx h
    simp only [padLoopAux]
    split
    · next hlt =>
      rw [ih _ _ (by simp only [List.length_append, List.length_cons, List.length_nil]; omega)]
      rw [List.append_assoc]
      congr 1
      simp only [List.length_append, List.length_cons, List.length_nil, List.singleton_append]
      rw [List.get_eq_getElem]
      exact List.getElem_cons_drop tx tr.length hlt
    · next hge =>
      have hle : tx.length ≤ tr.length := by omega
      simp [List.drop_eq_nil_of_le hle]

/-- The reconciled translation list is the gateway lines followed by the
source texts those lines did not cover. -/
theorem padLoop_eq (translations texts : List String) :
    padLoop translations texts = translations ++ texts.drop translations.length :=
  padLoopAux_eq _ _ _ (Nat.le_refl _)

/-- Every node the extraction walker emits carries a `match_snippet`
that is precisely its own text wrapped in its own tag. -/
theorem extract_texts_full_match (fuel : Nat) :
    ∀ (x : XNode) (p : String) (n : TNode),
      n ∈ extract_texts fuel x p →
      n.element_full_match = tagWrap n.tag n.original_text := by
  induction fuel with
  | zero => intro x p n h; simp [extract_texts] at h
  | succ fuel ih =>
    intro x p n h
    simp only [extract_texts, List.mem_flatMap] at h
    obtain ⟨child, _, hmem⟩ := h
    rw [List.mem_append] at hmem
    rcases hmem with hm | hm
    · split at hm
      · simp only [List.mem_singleton] at hm
        subst hm
        rfl
      · simp at hm
    · exact ih child _ n hm

/-- Substituting every node by its own original text is the identity on
the working buffer, for node lists whose snippets are well-formed in
the sense of `extract_texts_full_match`. -/
theorem substituteAll_map_original (nodes : List TNode) :
    ∀ (content : String),
      (∀ n ∈ nodes, n.element_full_match = tagWrap n.tag n.original_text) →
      substituteAll content nodes (nodes.map TNode.original_text) = content := by
  induction nodes with
  | nil => intro content _; rfl
  | cons n ns ih =>
    intro content hinv
    simp only [List.map_cons, substituteAll]
    rw [hinv n (by simp)]
    rw [strReplaceFirst_self]
    exact ih content (fun x hx => hinv x (by simp [hx]))

/-- The report body is the per-node record blocks of the nodes paired
with the translations their indices reach. -/
theorem reportRecords_eq_zip (nodes : List TNode) :
    ∀ ts, reportRecords nodes ts =
      (nodes.zip ts).flatMap (fun p => reportRecordOf p.1 p.2) := by
  induction nodes with
  | nil => intro ts; rfl
  | cons n ns ih =>
    intro ts
    cases ts with
    | nil => rfl
    | cons t ts' => simp [reportRecords, ih ts', List.zip_cons_cons]

/-! The claims. -/

/-- Claim C1, counterexample: with one node and a gateway reply of two
non-blank lines, `translate_texts` hands downstream a list of length
two, not the node count one — the length-equals-node-count invariant
fails when the gateway returns more lines than requested. -/
theorem translate_texts_extra_lines_cex :
    translate_texts (some "klucz") [⟨"a", "a", "Hello world", "<a>Hello world</a>"⟩]
        ⟨200, "Linia\nDruga"⟩ = Except.ok ["Linia", "Druga"] ∧
      ([(⟨"a", "a", "Hello world", "<a>Hello world</a>"⟩ : TNode)]).length = 1 ∧
      (["Linia", "Druga"] : List String).length ≠ 1 := by
  refine ⟨by rfl, by rfl, by decide⟩

/-- Claim C1 as amended: the list `translate_texts` returns has length
`max`(number of non-blank gateway lines, node count) — never less than
the node count, and equal to it whenever the gateway returns at most as
many lines as there are nodes; every index the gateway lines do not
reach is backfilled with the original text of the node at that index,
and the indices they do reach carry the gateway lines unchanged. -/
theorem translate_texts_backfill (key : Option String) (nodes : List TNode)
    (resp : GatewayResponse) (ts : List String)
    (h : translate_texts key nodes resp = Except.ok ts) :
    ts.length = max (parseGatewayLines resp.text).length nodes.length ∧
      nodes.length ≤ ts.length ∧
      ((parseGatewayLines resp.text).length ≤ nodes.length → ts.length = nodes.length) ∧
      (∀ i, (parseGatewayLines resp.text).length ≤ i → i < nodes.length →
        ts[i]? = (nodes.map TNode.original_text)[i]?) ∧
      (∀ i, i < (parseGatewayLines resp.text).length →
        ts[i]? = (parseGatewayLines resp.text)[i]?) := by
  unfold translate_texts translate_texts_traced at h
  cases key with
  | none => exact absurd h (by simp)
  | some k =>
    by_cases hs : resp.status ≠ 200
    · rw [if_pos hs] at h
      exact absurd h (by simp)
    · rw [if_neg hs] at h
      simp only [Except.ok.injEq] at h
      have hts : ts = parseGatewayLines resp.text ++
          (nodes.map TNode.original_text).drop (parseGatewayLines resp.text).length := by
        rw [← h, padLoop_eq]
      subst hts
      have hlenmap : (nodes.map TNode.original_text).length = nodes.length :=
        List.length_map _ _
      refine ⟨?_, ?_, ?_, ?_, ?_⟩
      · simp only [List.length_append, List.length_drop, hlenmap]
        omega
      · simp only [List.length_append, List.length_drop, hlenmap]
        omega
      · intro hle
        simp only [List.length_append, List.length_drop, hlenmap]
        omega
      · intro i hge hlt
        rw [List.getElem?_append_right (by omega)]
        rw [List.getElem?_drop]
        congr 1
        omega
      · intro i hlt
        rw [List.getElem?_append_left hlt]

/-- Claim C1 witness: one node, an all-blank gateway reply; the result
is the backfilled original and its length is the node count. -/
theorem translate_texts_backfill_witness :
    (["Hello world"] : List String).length =
      max (parseGatewayLines (GatewayResponse.mk 200 "").text).length
        ([(⟨"a", "a", "Hello world", "<a>Hello world</a>"⟩ : TNode)]).length :=
  (translate_texts_backfill (some "klucz")
    [⟨"a", "a", "Hello world", "<a>Hello world</a>"⟩]
    ⟨200, ""⟩ ["Hello world"] (by rfl)).1

/-- Claim C2, counterexample: two sibling nodes share the snippet
`<label>OK</label>`; with translations `["OK", "X"]` the first node's
substitution leaves the text unchanged, so the second node's
replacement lands on the first occurrence again instead of the second —
the occurrence consumed by node one is matched again by node two, and
the encounter-order outcome is not produced. -/
theorem substitution_reconsumed_occurrence_cex :
    reconstruct_mui_file "<r><label>OK</label><label>OK</label></r>"
        [⟨"label", "label", "OK", "<label>OK</label>"⟩,
         ⟨"label", "label", "OK", "<label>OK</label>"⟩]
        ["OK", "X"] = Except.ok "<r><label>X</label><label>OK</label></r>" ∧
      ("<r><label>X</label><label>OK</label></r>" : String) ≠
        "<r><label>OK</label><label>X</label></r>" := by
  refine ⟨by rfl, by decide⟩

/-- Claim C2 as amended: each node's substitution rewrites exactly the
first occurrence of its `match_snippet` in the current working text and
nothing else (never a global replace-all) — so duplicate snippets whose
replacement snippets differ from the original are consumed in encounter
order, as the two-`<label>OK</label>` run with distinct translations
shows; but when a node's replacement equals its snippet the occurrence
survives and may be matched again by a later node. -/
theorem substitution_first_occurrence :
    (∀ s old new : List Char,
      listReplaceFirst s old new =
        match firstOccIdx s old with
        | some k => s.take k ++ new ++ s.drop (k + old.length)
        | none => s) ∧
      reconstruct_mui_file "<r><label>OK</label><label>OK</label></r>"
        [⟨"label", "label", "OK", "<label>OK</label>"⟩,
         ⟨"label", "label", "OK", "<label>OK</label>"⟩]
        ["Tak", "Nie"] = Except.ok "<r><label>Tak</label><label>Nie</label></r>" :=
  ⟨listReplaceFirst_spec, by rfl⟩

/-- Claim C3: a successful reconstruction returns exactly the fully
substituted candidate and only when that candidate re-parses; a
candidate the well-formedness parse rejects is answered with the
reconstruction error and never returned. -/
theorem reconstruct_validates (orig : String) (nodes : List TNode) (ts : List String) :
    (∀ out, reconstruct_mui_file orig nodes ts = Except.ok out →
      (parseXML out).isSome = true ∧ out = substituteAll orig nodes ts) ∧
      (parseXML (substituteAll orig nodes ts) = none →
        reconstruct_mui_file orig nodes ts = Except.error AppError.reconstructionDamaged) := by
  cases hp : parseXML (substituteAll orig nodes ts) with
  | none =>
    have herr : reconstruct_mui_file orig nodes ts =
        Except.error AppError.reconstructionDamaged := by
      simp [reconstruct_mui_file, hp]
    refine ⟨?_, fun _ => herr⟩
    intro out hout
    rw [herr] at hout
    exact absurd hout (by simp)
  | some tree =>
    have hok : reconstruct_mui_file orig nodes ts =
        Except.ok (substituteAll orig nodes ts) := by
      simp [reconstruct_mui_file, hp]
    refine ⟨?_, ?_⟩
    · intro out hout
      rw [hok] at hout
      simp only [Except.ok.injEq] at hout
      subst hout
      exact ⟨by rw [hp]; rfl, rfl⟩
    · intro hnone
      exact absurd hnone (by simp)

/-- Claim C3 witness: an empty node list reconstructs successfully and
the returned text is the (trivially) substituted candidate, which
parses. -/
theorem reconstruct_validates_witness :
    (parseXML "<r><a>Hi</a></r>").isSome = true ∧
      ("<r><a>Hi</a></r>" : String) = substituteAll "<r><a>Hi</a></r>" [] [] :=
  (reconstruct_validates "<r><a>Hi</a></r>" [] []).1 "<r><a>Hi</a></r>" (by rfl)

/-- Claim C4: reconstructing with the translations equal to the
extracted nodes' original texts succeeds and returns the stored
original text itself, so the output parses to exactly the same tree as
the original document. -/
theorem roundtrip_identity (raw : String) (nodes : List TNode) (orig : String)
    (h : parse_mui_file raw = Except.ok (nodes, orig)) :
    reconstruct_mui_file orig nodes (nodes.map TNode.original_text) = Except.ok orig ∧
      ∀ out, reconstruct_mui_file orig nodes (nodes.map TNode.original_text) =
        Except.ok out → parseXML out = parseXML orig := by
  have hdef : parse_mui_file raw =
      match parseXML (stripBOMchars raw) with
      | none => Except.error AppError.invalidFormat
      | some root =>
        Except.ok (extract_texts ((stripBOMchars raw).length + 1) root "",
          stripBOMchars raw) := rfl
  rw [hdef] at h
  cases hp : parseXML (stripBOMchars raw) with
  | none => rw [hp] at h; exact absurd h (by simp)
  | some root =>
    rw [hp] at h
    simp only [Except.ok.injEq, Prod.mk.injEq] at h
    obtain ⟨hnodes, horig⟩ := h
    have hinv : ∀ n ∈ nodes, n.element_full_match = tagWrap n.tag n.original_text := by
      intro n hn
      rw [← hnodes] at hn
      exact extract_texts_full_match _ _ _ _ hn
    have hsub : substituteAll orig nodes (nodes.map TNode.original_text) = orig :=
      substituteAll_map_original nodes orig hinv
    have hroot : parseXML orig = some root := by rw [← horig]; exact hp
    have hok : reconstruct_mui_file orig nodes (nodes.map TNode.original_text) =
        Except.ok orig := by
      simp [reconstruct_mui_file, hsub, hroot]
    refine ⟨hok, ?_⟩
    intro out hout
    rw [hok] at hout
    simp only [Except.ok.injEq] at hout
    rw [hout]

/-- Claim C4 witness: the sample document round-trips to itself. -/
theorem roundtrip_identity_witness :
    reconstruct_mui_file "<r><a>Hello World</a></r>"
        [⟨"a", "a", "Hello World", "<a>Hello World</a>"⟩]
        (List.map TNode.original_text [⟨"a", "a", "Hello World", "<a>Hello World</a>"⟩]) =
      Except.ok "<r><a>Hello World</a></r>" :=
  (roundtrip_identity "<r><a>Hello World</a></r>"
    [⟨"a", "a", "Hello World", "<a>Hello World</a>"⟩]
    "<r><a>Hello World</a></r>" (by rfl)).1

/-- Claim C5: extracting the sample document yields exactly the two
nodes `a` (text `Pierce Method`, path `a`) and `d` (text `Laser Type`,
path `c/d`), in pre-order: `b` is dropped as code-like and `d` is
reached although its parent `c` has no own text. -/
theorem extraction_sample_doc :
    parse_mui_file "<root><a>Pierce Method</a><b>ID_123</b><c><d>Laser Type</d></c></root>" =
      Except.ok ([⟨"a", "a", "Pierce Method", "<a>Pierce Method</a>"⟩,
                  ⟨"c/d", "d", "Laser Type", "<d>Laser Type</d>"⟩],
        "<root><a>Pierce Method</a><b>ID_123</b><c><d>Laser Type</d></c></root>") := by
  rfl

/-- Claim C6: every string of shape `[A-Z_][A-Z0-9_]*` and every
nonempty digit string is code-like, as are `#FF00AA`, `$variable` and
the one-character `a`, while `Pierce Method` and `Cutting Speed` are
not. -/
theorem is_code_like_spec :
    (∀ (c : Char) (cs : List Char), (isUpperAZ c || c == '_') = true →
      (∀ d ∈ cs, (isUpperAZ d || isDigit09 d || d == '_') = true) →
      is_code_like (String.mk (c :: cs)) = true) ∧
      (∀ l : List Char, l ≠ [] → (∀ c ∈ l, isDigit09 c = true) →
        is_code_like (String.mk l) = true) ∧
      is_code_like "#FF00AA" = true ∧
      is_code_like "$variable" = true ∧
      is_code_like "a" = true ∧
      is_code_like "Pierce Method" = false ∧
      is_code_like "Cutting Speed" = false := by
  refine ⟨?_, ?_, by decide, by decide, by decide, by decide, by decide⟩
  · intro c cs hc hcs
    have hbody : matchUpperConst (c :: cs) = true := by
      simp only [matchUpperConst, Bool.and_eq_true]
      exact ⟨hc, List.all_eq_true.mpr hcs⟩
    have hfull : matchToEnd matchUpperConst (c :: cs) = true := by
      simp [matchToEnd, hbody]
    simp [is_code_like, hfull]
  · intro l hne hdig
    have hbody : matchDigits l = true := by
      simp only [matchDigits, Bool.and_eq_true]
      exact ⟨by simp [List.isEmpty_iff, hne], List.all_eq_true.mpr hdig⟩
    have hfull : matchToEnd matchDigits l = true := by
      simp [matchToEnd, hbody]
    by_cases h1 : matchToEnd matchUpperConst l = true <;>
      simp [is_code_like, h1, hfull]

/-- Claim C6 witness: the universal clauses applied to `LASER_TYPE` and
`12345`. -/
theorem is_code_like_spec_witness :
    is_code_like (String.mk ('L' :: "ASER_TYPE".toList)) = true ∧
      is_code_like (String.mk "12345".toList) = true :=
  ⟨is_code_like_spec.1 'L' "ASER_TYPE".toList (by decide) (by decide),
   is_code_like_spec.2.1 "12345".toList (by decide) (by decide)⟩

/-- Claim C7: the gateway is reached only after a successful parse, a
nonempty extraction and a present credential; each early failure
returns its own error with the gateway untouched. -/
theorem gateway_call_guarded (fc : String) (key : Option String)
    (resp : GatewayResponse) (now : String) :
    ((translate_mui_run fc key resp now).2 = true →
      (∃ nodes orig, parse_mui_file fc = Except.ok (nodes, orig) ∧ nodes ≠ []) ∧
        key ≠ none) ∧
      (parse_mui_file fc = Except.error AppError.invalidFormat →
        translate_mui_run fc key resp now = (Except.error AppError.invalidFormat, false)) ∧
      (∀ orig, parse_mui_file fc = Except.ok ([], orig) →
        translate_mui_run fc key resp now = (Except.error AppError.noTranslatableContent, false)) ∧
      (∀ nodes orig, parse_mui_file fc = Except.ok (nodes, orig) → nodes ≠ [] →
        key = none →
        translate_mui_run fc key resp now = (Except.error AppError.missingApiKey, false)) := by
  refine ⟨?_, ?_, ?_, ?_⟩
  · intro h
    cases hp : parse_mui_file fc with
    | error e =>
      simp only [translate_mui_run, hp] at h
      exact absurd h (by simp)
    | ok p =>
      obtain ⟨nodes, orig⟩ := p
      simp only [translate_mui_run, hp] at h
      by_cases hne : nodes.isEmpty = true
      · rw [if_pos hne] at h
        simp at h
      · rw [if_neg hne] at h
        cases key with
        | none => simp [translate_texts_traced] at h
        | some k =>
          exact ⟨⟨nodes, orig, rfl, by simpa [List.isEmpty_iff] using hne⟩, by simp⟩
  · intro he
    simp [translate_mui_run, he]
  · intro orig horig
    simp [translate_mui_run, horig]
  · intro nodes orig hok hne hk
    have hfalse : nodes.isEmpty = false := by
      simp [List.isEmpty_iff]
      exact hne
    simp [translate_mui_run, hok, hk, hfalse, translate_texts_traced]

/-- Claim C7 witness: a well-formed document with one translatable node
and a configured key does invoke the gateway, hence the guard holds. -/
theorem gateway_call_guarded_witness :
    (∃ nodes orig, parse_mui_file "<r><a>Hello World</a></r>" =
      Except.ok (nodes, orig) ∧ nodes ≠ []) ∧ (some "k" : Option String) ≠ none :=
  (gateway_call_guarded "<r><a>Hello World</a></r>" (some "k") ⟨200, "Witaj"⟩ "D").1 (by rfl)

/-- Claim C8: a node whose `match_snippet` does not occur in the current
working text changes nothing and is skipped without error, processing
continuing with the remaining nodes and translations. -/
theorem substitution_skips_missing (content : String) (n : TNode) (ns : List TNode)
    (t : String) (ts : List String)
    (h : firstOccIdx content.toList n.element_full_match.toList = none) :
    substituteAll content (n :: ns) (t :: ts) = substituteAll content ns ts := by
  simp only [substituteAll]
  rw [strReplaceFirst_of_notFound _ _ _ h]

/-- Claim C8 witness: a node looking for an absent `<x>Q</x>` snippet
leaves the sample text unchanged. -/
theorem substitution_skips_missing_witness :
    substituteAll "<r><a>Hi</a></r>" [⟨"x", "x", "Q", "<x>Q</x>"⟩] ["Z"] =
      substituteAll "<r><a>Hi</a></r>" [] [] :=
  substitution_skips_missing "<r><a>Hi</a></r>" ⟨"x", "x", "Q", "<x>Q</x>"⟩ [] "Z" []
    (by decide)

/-- Claim C9, counterexample: with one node and no translations the
report's count line says zero — the translation count, not the node
count — and no record at all is emitted for the node. -/
theorem report_counts_translations_cex :
    generate_translation_report "D" [⟨"a", "a", "Hello", "<a>Hello</a>"⟩] [] =
        "=== RAPORT TŁUMACZENIA PLIKU .MUI ===\nData: D\nLiczba przetłumaczonych elementów: 0\n\nSZCZEGÓŁY TŁUMACZEŃ:\n" ∧
      reportRecords [⟨"a", "a", "Hello", "<a>Hello</a>"⟩] [] = [] ∧
      ([(⟨"a", "a", "Hello", "<a>Hello</a>"⟩ : TNode)]).length = 1 := by
  refine ⟨by rfl, by rfl, by rfl⟩

/-- Claim C9 as amended: the report is the header block — title,
timestamp, the count of translations — followed by one record block per
node paired with the translation at its index (so exactly one per node
whenever the translations cover every node), in canonical order. -/
theorem report_structure (now : String) (nodes : List TNode) (ts : List String) :
    generate_translation_report now nodes ts =
      String.intercalate "\n" (reportHeader now ts.length ++
        (nodes.zip ts).flatMap (fun p => reportRecordOf p.1 p.2)) ∧
      (nodes.length ≤ ts.length → (nodes.zip ts).length = nodes.length) := by
  constructor
  · unfold generate_translation_report
    rw [reportRecords_eq_zip]
  · intro hle
    rw [List.length_zip]
    omega

/-- Claim C9 witness: with one node and one translation the zip pairing
carries exactly one record source. -/
theorem report_structure_witness :
    ([(⟨"a", "a", "Hello", "<a>Hello</a>"⟩ : TNode)].zip ["T"]).length = 1 :=
  (report_structure "D" [⟨"a", "a", "Hello", "<a>Hello</a>"⟩] ["T"]).2 (by decide)

/-- Claim C10: the gateway reply is stripped, split and cleansed of
blank lines before index alignment — no empty string ever reaches the
translation list, and a blank line anywhere is simply dropped, shifting
the later lines to earlier indices, as `A`, blank, `B` collapsing to
`[A, B]` shows. -/
theorem gateway_lines_no_blanks :
    (∀ body s, s ∈ parseGatewayLines body → s ≠ "") ∧
      (∀ (ls1 ls2 : List String) (b : String), pyStrip b = "" →
        cleanLines (ls1 ++ b :: ls2) = cleanLines (ls1 ++ ls2)) ∧
      parseGatewayLines "A\n\nB" = ["A", "B"] := by
  refine ⟨?_, ?_, by rfl⟩
  · intro body s hs
    unfold parseGatewayLines cleanLines at hs
    have hmem := List.mem_filter.mp hs
    intro he
    subst he
    simpa using hmem.2
  · intro ls1 ls2 b hb
    unfold cleanLines
    rw [List.map_append, List.map_append, List.map_cons]
    rw [List.filter_append, List.filter_append, List.filter_cons]
    rw [hb]
    simp

/-- Claim C10 witness: the first kept line of `A`, blank, `B` is the
nonempty `A`. -/
theorem gateway_lines_no_blanks_witness : ("A" : String) ≠ "" :=
  gateway_lines_no_blanks.1 "A\n\nB" "A" (by decide)

end MuiApp
